import Mathlib

/-!
Shallow embedding of the komodo-actions GitHub Action (`src/main.ts`).

The action reads inputs (`kind`, `patterns`, `dry-run`, connection
parameters with environment fallback), dispatches one remote Komodo call
per target name sequentially, flattens the per-target results, filters
them with the `hasOid` type guard, reduces them to an id → status mapping,
sets the `updates` output and appends a Markdown summary.

Remote calls are modelled by a `client` oracle indexed by the dispatch
position, returning either a rejection message or an `UpdateResult`.
-/

namespace Komodo

/-- A value of the union type `UpdateItem` from `main.ts`: either a real
`Update` (which has an `operation` field and possibly a Mongo `_id.$oid`
string) or an `Err`-shaped object (no `operation` field).  `oid = some s`
means the value has `_id.$oid` equal to the string `s`; `oid = none` means
`_id.$oid` is missing or not a string. -/
structure UpdateItem where
  hasOperation : Bool
  oid : Option String
  status : String
deriving DecidableEq

/-- Type `UpdateResult = UpdateItem | UpdateItem[]` from `main.ts`. -/
inductive UpdateResult where
  | single (u : UpdateItem)
  | list (l : List UpdateItem)
deriving DecidableEq

/-- One remote invocation: the Komodo operation name together with the
payload field and target name (e.g. `DeployStack` with `{stack: name}`). -/
structure RemoteCall where
  op : String
  field : String
  name : String
deriving DecidableEq

/-- Type guard `hasOid` from `main.ts`: keeps values that have an
`operation` field and whose `_id.$oid` is a string. -/
def hasOid (item : UpdateItem) : Bool :=
  item.hasOperation && item.oid.isSome

/-- Function `executeOne` from `main.ts`: dispatches the one remote call matching
`kind`, or throws `Unsupported kind: ...` without calling.  Returns the
list of remote calls issued together with the outcome (`Except.error` is a
thrown/rejected message). -/
def executeOne (respond : RemoteCall → Except String UpdateResult)
    (kind name : String) : List RemoteCall × Except String UpdateResult :=
  match kind with
  | "stack" =>
      ([⟨"DeployStack", "stack", name⟩], respond ⟨"DeployStack", "stack", name⟩)
  | "procedure" =>
      ([⟨"RunProcedure", "procedure", name⟩], respond ⟨"RunProcedure", "procedure", name⟩)
  | _ => ([], Except.error ("Unsupported kind: " ++ kind))

/-- The single call `executeOne` issues for a supported `kind`. -/
def theCall (kind name : String) : RemoteCall :=
  if kind = "stack" then ⟨"DeployStack", "stack", name⟩
  else ⟨"RunProcedure", "procedure", name⟩

/-- Flattening of one per-target result, as done by the
`Array.isArray(result) ? results.push(...result) : results.push(result)`
branch of the dispatch loop. -/
def flattenOne : UpdateResult → List UpdateItem
  | UpdateResult.single u => [u]
  | UpdateResult.list l => l

/-- The accumulated flat `results` array built from the raw per-target
results, in order. -/
def flattenResults (rs : List UpdateResult) : List UpdateItem :=
  rs.foldl (fun acc r => acc ++ flattenOne r) []

/-- JavaScript object assignment `acc[k] = v` on an insertion-ordered
association list: overwrite in place if the key exists, else append. -/
def setKey : List (String × String) → String → String → List (String × String)
  | [], k, v => [(k, v)]
  | (k', v') :: rest, k, v =>
      if k' = k then (k', v) :: rest else (k', v') :: setKey rest k v

/-- One step of the `reduce` in `main.ts`: `acc[update._id.$oid] = update.status`. -/
def insertStatus (acc : List (String × String)) (u : UpdateItem) :
    List (String × String) :=
  setKey acc (u.oid.getD "") u.status

/-- The final identifier → status mapping,
`results.filter(hasOid).reduce(...)` from `main.ts`. -/
def buildStatusMap (results : List UpdateItem) : List (String × String) :=
  (results.filter hasOid).foldl insertStatus []

/-- Reading a key of the JavaScript object modelled by the association
list (keys are unique, so the first match is the only match). -/
def lookupKey : List (String × String) → String → Option String
  | [], _ => none
  | (k', v) :: rest, k => if k' = k then some v else lookupKey rest k

/-- Last-write-wins reading of a raw result list: the status of the last
record with a valid identifier equal to `k`, if any. -/
def lastWins : List UpdateItem → String → Option String
  | [], _ => none
  | u :: rest, k =>
      match lastWins rest k with
      | some s => some s
      | none => if hasOid u = true ∧ u.oid = some k then some u.status else none

/-- Last record of an (already filtered) list whose `$oid` key is `k`. -/
def lastKeyStatus : List UpdateItem → String → Option String
  | [], _ => none
  | u :: rest, k =>
      match lastKeyStatus rest k with
      | some s => some s
      | none => if u.oid.getD "" = k then some u.status else none

/-- The Markdown table written by `writeStepSummary`. -/
def summaryMarkdown (m : List (String × String)) : String :=
  "### 📝 Komodo Deployment Summary\n\n| Update ID | Status |\n|-----------|--------|\n"
    ++ String.join (m.map (fun p => "| " ++ p.1 ++ " | " ++ p.2 ++ " |\n"))

/-- Outcome of `JSON.parse` on the `patterns` input followed by the
`Array.isArray` test: a thrown parse error, a parsed non-array value, or
an array of target names. -/
inductive Parsed where
  | parseError (msg : String)
  | notArray
  | arr (xs : List String)
deriving DecidableEq

/-- The action's inputs, as returned by `core.getInput`. -/
structure Inputs where
  kind : String
  patterns : Parsed
  dryRun : String
  komodoUrl : String
  apiKey : String
  apiSecret : String

/-- The environment snapshot consulted by `main.ts`:
`KOMODO_URL`, `KOMODO_API_KEY`, `KOMODO_API_SECRET`, `GITHUB_STEP_SUMMARY`. -/
structure Env where
  komodoUrl : Option String
  apiKey : Option String
  apiSecret : Option String
  stepSummary : Option String

/-- Resolution `core.getInput(name) || process.env.VAR`: the input when
non-empty, else the environment value. -/
def resolve (inp : String) (env : Option String) : Option String :=
  if inp = "" then env else some inp

/-- JavaScript falsiness of a possibly-missing string: `undefined` or `""`. -/
def falsyOpt : Option String → Bool
  | none => true
  | some s => s = ""

/-- The `!komodoUrl || !apiKey || !apiSecret` test of `main.ts`. -/
def credsMissing (inp : Inputs) (env : Env) : Bool :=
  falsyOpt (resolve inp.komodoUrl env.komodoUrl) ||
  falsyOpt (resolve inp.apiKey env.apiKey) ||
  falsyOpt (resolve inp.apiSecret env.apiSecret)

/-- A value passed to `core.setOutput`: a literal string or a mapping. -/
inductive OutputVal where
  | str (s : String)
  | map (m : List (String × String))
deriving DecidableEq

/-- Observable effects of a run: `core.setOutput` calls in order, remote
calls in order, summary-file appends in order. -/
structure Effects where
  outputs : List (String × OutputVal)
  calls : List RemoteCall
  summary : List String

/-- How the body of `run` (the `try` block) ends: normal completion,
a direct `core.setFailed` + `return`, or a thrown error. -/
inductive BodyOutcome where
  | ok
  | failedDirect (msg : String)
  | thrown (msg : String)

/-- The full observable result of `run`, `failed` being the message passed
to `core.setFailed`, if any. -/
structure RunResult where
  outputs : List (String × OutputVal)
  calls : List RemoteCall
  summary : List String
  failed : Option String

/-- The `updates` sentinel output set when `!Array.isArray(patterns) ||
patterns.length === 0`. -/
def sentinelOutputs (xs : List String) : List (String × OutputVal) :=
  if xs.length = 0 then [("updates", OutputVal.str "Nothing to update here")]
  else []

/-- The dispatch loop of `run`: one `executeOne` per target, strictly in
order, accumulating issued calls and flattened results; a rejection stops
the loop and is rethrown.  `client i` answers the call of the `i`-th
target. -/
def dispatchLoop (client : Nat → RemoteCall → Except String UpdateResult)
    (kind : String) :
    List String → Nat → List RemoteCall → List UpdateItem →
    List RemoteCall × Except String (List UpdateItem)
  | [], _, calls, acc => (calls, Except.ok acc)
  | name :: rest, i, calls, acc =>
      match executeOne (client i) kind name with
      | (cs, Except.error m) => (calls ++ cs, Except.error m)
      | (cs, Except.ok r) =>
          dispatchLoop client kind rest (i + 1) (calls ++ cs) (acc ++ flattenOne r)

/-- The `try` block of `run` from `main.ts`, step by step:
parse `patterns`; set the sentinel output on a non-array or empty parse;
(`patterns.join` throws on a non-array); return after setting `updates`
to `{}` when dry-run; resolve credentials and fail when one is missing;
run the dispatch loop; build the status map, set the `updates` output and
append the summary when `GITHUB_STEP_SUMMARY` is set. -/
def runBody (inp : Inputs) (env : Env)
    (client : Nat → RemoteCall → Except String UpdateResult) :
    Effects × BodyOutcome :=
  match inp.patterns with
  | Parsed.parseError m => (⟨[], [], []⟩, BodyOutcome.thrown m)
  | Parsed.notArray =>
      (⟨[("updates", OutputVal.str "Nothing to update here")], [], []⟩,
       BodyOutcome.thrown "patterns.join is not a function")
  | Parsed.arr patterns =>
      if inp.dryRun = "true" then
        (⟨sentinelOutputs patterns ++ [("updates", OutputVal.map [])], [], []⟩,
         BodyOutcome.ok)
      else if credsMissing inp env then
        (⟨sentinelOutputs patterns, [], []⟩,
         BodyOutcome.failedDirect
           "Komodo URL / API key / API secret must be provided either via input or env")
      else
        match dispatchLoop client inp.kind patterns 0 [] [] with
        | (calls, Except.error m) =>
            (⟨sentinelOutputs patterns, calls, []⟩, BodyOutcome.thrown m)
        | (calls, Except.ok results) =>
            (⟨sentinelOutputs patterns ++
                [("updates", OutputVal.map (buildStatusMap results))],
              calls,
              if falsyOpt env.stepSummary then []
              else [summaryMarkdown (buildStatusMap results)]⟩,
             BodyOutcome.ok)

/-- Function `run` from `main.ts`: the `try` body wrapped in the single
top-level `catch`, which reports a thrown error's message via
`core.setFailed`. -/
def run (inp : Inputs) (env : Env)
    (client : Nat → RemoteCall → Except String UpdateResult) : RunResult :=
  match runBody inp env client with
  | (e, BodyOutcome.ok) => ⟨e.outputs, e.calls, e.summary, none⟩
  | (e, BodyOutcome.failedDirect m) => ⟨e.outputs, e.calls, e.summary, some m⟩
  | (e, BodyOutcome.thrown m) => ⟨e.outputs, e.calls, e.summary, some m⟩

/-- Environment with nothing set. -/
def envEmpty : Env :=
  { komodoUrl := none, apiKey := none, apiSecret := none, stepSummary := none }

/-- A client that rejects every call. -/
def clientBoom : Nat → RemoteCall → Except String UpdateResult :=
  fun _ _ => Except.error "boom"

/-- A client that resolves every call with an empty batch. -/
def clientOkEmpty : Nat → RemoteCall → Except String UpdateResult :=
  fun _ _ => Except.ok (UpdateResult.list [])

/-- A client that resolves the first call and rejects every later one. -/
def clientFailSecond : Nat → RemoteCall → Except String UpdateResult :=
  fun i _ => if i = 0 then Except.ok (UpdateResult.list []) else Except.error "boom"

/-- A respond function for direct `executeOne` tests. -/
def respondNever : RemoteCall → Except String UpdateResult :=
  fun _ => Except.error "no remote"

/-- Inputs with an empty parsed target list and explicit credentials. -/
def inpEmptyList : Inputs :=
  { kind := "stack", patterns := Parsed.arr [], dryRun := "false",
    komodoUrl := "https://k.example", apiKey := "key", apiSecret := "sec" }

/-- Inputs whose `patterns` string fails to parse, with dry-run on. -/
def inpDryBadParse : Inputs :=
  { kind := "stack", patterns := Parsed.parseError "Unexpected token x in JSON",
    dryRun := "true", komodoUrl := "", apiKey := "", apiSecret := "" }

/-- Inputs with one target and dry-run on. -/
def inpDryOne : Inputs :=
  { kind := "stack", patterns := Parsed.arr ["a"], dryRun := "true",
    komodoUrl := "", apiKey := "", apiSecret := "" }

/-- Inputs whose `patterns` string fails to parse, with no credentials and
dry-run off. -/
def inpNoCredsBadParse : Inputs :=
  { kind := "stack", patterns := Parsed.parseError "Unexpected end of JSON input",
    dryRun := "false", komodoUrl := "", apiKey := "", apiSecret := "" }

/-- Inputs with one target, no credentials anywhere, dry-run off. -/
def inpNoCreds : Inputs :=
  { kind := "stack", patterns := Parsed.arr ["a"], dryRun := "false",
    komodoUrl := "", apiKey := "", apiSecret := "" }

/-- Inputs with two targets and explicit credentials. -/
def inpTwoTargets : Inputs :=
  { kind := "stack", patterns := Parsed.arr ["a", "b"], dryRun := "false",
    komodoUrl := "https://k.example", apiKey := "key", apiSecret := "sec" }

/-- Inputs with two targets and explicit credentials, used with the
client whose second call rejects. -/
def inpTwoTargetsFail : Inputs :=
  { kind := "stack", patterns := Parsed.arr ["a", "b"], dryRun := "false",
    komodoUrl := "https://k.example", apiKey := "key", apiSecret := "sec" }

/-- Inputs whose `patterns` string fails to parse, dry-run off. -/
def inpParseFailOnly : Inputs :=
  { kind := "stack", patterns := Parsed.parseError "bad input",
    dryRun := "false", komodoUrl := "", apiKey := "", apiSecret := "" }

/-- Inputs whose `patterns` string fails to parse, dry-run on, no
credentials anywhere. -/
def inpDryNoCredsBadParse : Inputs :=
  { kind := "procedure", patterns := Parsed.parseError "not json",
    dryRun := "true", komodoUrl := "", apiKey := "", apiSecret := "" }

/-- Inputs with one target, dry-run on, no credentials anywhere. -/
def inpDryNoCreds : Inputs :=
  { kind := "stack", patterns := Parsed.arr ["x"], dryRun := "true",
    komodoUrl := "", apiKey := "", apiSecret := "" }

theorem executeOne_valid (respond : RemoteCall → Except String UpdateResult)
    (kind name : String) (h : kind = "stack" ∨ kind = "procedure") :
    executeOne respond kind name =
      ([theCall kind name], respond (theCall kind name)) := by
  rcases h with rfl | rfl <;> rfl

theorem mem_keys_setKey (acc : List (String × String)) (k0 v k : String) :
    k ∈ (setKey acc k0 v).map Prod.fst ↔ k ∈ acc.map Prod.fst ∨ k = k0 := by
  induction acc with
  | nil => simp [setKey]
  | cons p rest ih =>
      obtain ⟨ka, va⟩ := p
      by_cases h : ka = k0
      · subst h
        have e : setKey ((ka, va) :: rest) ka v = (ka, v) :: rest := by
          simp [setKey]
        rw [e]
        simp only [List.map_cons, List.mem_cons]
        tauto
      · have e : setKey ((ka, va) :: rest) k0 v = (ka, va) :: setKey rest k0 v := by
          simp [setKey, h]
        rw [e]
        simp only [List.map_cons, List.mem_cons, ih]
        tauto

theorem lookupKey_setKey (acc : List (String × String)) (k0 v k : String) :
    lookupKey (setKey acc k0 v) k = if k = k0 then some v else lookupKey acc k := by
  induction acc with
  | nil =>
      by_cases h : k = k0
      · subst h; simp [setKey, lookupKey]
      · have h' : ¬(k0 = k) := fun e => h e.symm
        simp [setKey, lookupKey, h, h']
  | cons p rest ih =>
      obtain ⟨ka, va⟩ := p
      by_cases h : ka = k0
      · subst h
        by_cases hk : ka = k
        · subst hk
          simp [setKey, lookupKey]
        · have hk' : ¬(k = ka) := fun e => hk e.symm
          simp [setKey, lookupKey, hk, hk']
      · by_cases hk : ka = k
        · subst hk
          simp [setKey, lookupKey, h]
        · have hk' : ¬(k = ka) := fun e => hk e.symm
          simp [setKey, lookupKey, h, hk, ih]

theorem mem_keys_foldl (l : List UpdateItem) :
    ∀ (acc : List (String × String)) (k : String),
      k ∈ ((l.foldl insertStatus acc).map Prod.fst) ↔
        k ∈ acc.map Prod.fst ∨ ∃ u ∈ l, u.oid.getD "" = k := by
  induction l with
  | nil => intro acc k; simp
  | cons u l ih =>
      intro acc k
      simp only [List.foldl_cons]
      rw [ih]
      unfold insertStatus
      rw [mem_keys_setKey]
      simp only [List.mem_cons, exists_eq_or_imp]
      constructor
      · rintro ((h | h) | h)
        · exact Or.inl h
        · exact Or.inr (Or.inl h.symm)
        · exact Or.inr (Or.inr h)
      · rintro (h | h | h)
        · exact Or.inl (Or.inl h)
        · exact Or.inl (Or.inr h.symm)
        · exact Or.inr h

theorem lookupKey_foldl (l : List UpdateItem) :
    ∀ (acc : List (String × String)) (k : String),
      lookupKey (l.foldl insertStatus acc) k =
        match lastKeyStatus l k with
        | some s => some s
        | none => lookupKey acc k := by
  induction l with
  | nil => intro acc k; simp [lastKeyStatus]
  | cons u l ih =>
      intro acc k
      simp only [List.foldl_cons]
      rw [ih]
      simp only [lastKeyStatus]
      cases hls : lastKeyStatus l k with
      | some s => simp
      | none =>
          simp only []
          unfold insertStatus
          rw [lookupKey_setKey]
          by_cases hk : k = u.oid.getD ""
          · rw [if_pos hk, if_pos hk.symm]
          · have hk' : ¬(u.oid.getD "" = k) := fun e => hk e.symm
            rw [if_neg hk, if_neg hk']

theorem lastWins_filter (l : List UpdateItem) (k : String) :
    lastWins l k = lastKeyStatus (l.filter hasOid) k := by
  induction l with
  | nil => simp [lastWins, lastKeyStatus]
  | cons u l ih =>
      by_cases h : hasOid u = true
      · rw [List.filter_cons_of_pos h]
        simp only [lastWins, lastKeyStatus, ih]
        cases hls : lastKeyStatus (l.filter hasOid) k with
        | some s => simp
        | none =>
            simp only []
            cases hoid : u.oid with
            | none =>
                exfalso
                unfold hasOid at h
                rw [hoid] at h
                simp at h
            | some s => simp [hoid, h]
      · rw [List.filter_cons_of_neg (by simpa using h)]
        simp only [lastWins, ih]
        cases hls : lastKeyStatus (l.filter hasOid) k with
        | some s => simp
        | none =>
            have hcond : ¬(hasOid u = true ∧ u.oid = some k) := fun hc => h hc.1
            simp [hcond]

theorem foldl_flatten_acc (l : List UpdateResult) :
    ∀ acc : List UpdateItem,
      l.foldl (fun acc r => acc ++ flattenOne r) acc = acc ++ flattenResults l := by
  induction l with
  | nil => intro acc; simp [flattenResults]
  | cons r l ih =>
      intro acc
      have e : flattenResults (r :: l) = flattenOne r ++ flattenResults l := by
        unfold flattenResults
        simp only [List.foldl_cons, List.nil_append]
        rw [ih]
        rfl
      rw [e]
      simp only [List.foldl_cons]
      rw [ih]
      rw [List.append_assoc]

theorem flattenResults_cons (r : UpdateResult) (l : List UpdateResult) :
    flattenResults (r :: l) = flattenOne r ++ flattenResults l := by
  unfold flattenResults
  simp only [List.foldl_cons, List.nil_append]
  rw [foldl_flatten_acc]
  rfl

theorem flattenResults_append (l1 l2 : List UpdateResult) :
    flattenResults (l1 ++ l2) = flattenResults l1 ++ flattenResults l2 := by
  unfold flattenResults
  rw [List.foldl_append, foldl_flatten_acc]
  rfl

theorem getLast?_append_single {α : Type} (l : List α) (a : α) :
    (l ++ [a]).getLast? = some a := by
  rw [List.getLast?_append_cons]
  simp

theorem dispatchLoop_ok (client : Nat → RemoteCall → Except String UpdateResult)
    (kind : String) (hkind : kind = "stack" ∨ kind = "procedure") :
    ∀ (xs : List String) (i0 : Nat) (calls : List RemoteCall) (acc : List UpdateItem),
      (∀ j (h : j < xs.length),
        ∃ r, client (i0 + j) (theCall kind (xs.get ⟨j, h⟩)) = Except.ok r) →
      ∃ res, dispatchLoop client kind xs i0 calls acc =
        (calls ++ xs.map (theCall kind), Except.ok res) := by
  intro xs
  induction xs with
  | nil =>
      intro i0 calls acc _
      exact ⟨acc, by simp [dispatchLoop]⟩
  | cons name rest ih =>
      intro i0 calls acc hok
      obtain ⟨r, hr⟩ := hok 0 (by simp)
      have hr' : client i0 (theCall kind name) = Except.ok r := hr
      have hok' : ∀ j (h : j < rest.length),
          ∃ r2, client (i0 + 1 + j) (theCall kind (rest.get ⟨j, h⟩)) = Except.ok r2 := by
        intro j h
        have h2 := hok (j + 1) (by simp; omega)
        have e : i0 + (j + 1) = i0 + 1 + j := by omega
        rw [e] at h2
        exact h2
      obtain ⟨res, hres⟩ := ih (i0 + 1) (calls ++ [theCall kind name]) (acc ++ flattenOne r) hok'
      refine ⟨res, ?_⟩
      have hstep : dispatchLoop client kind (name :: rest) i0 calls acc =
          dispatchLoop client kind rest (i0 + 1)
            (calls ++ [theCall kind name]) (acc ++ flattenOne r) := by
        simp only [dispatchLoop]
        rw [executeOne_valid _ _ _ hkind, hr']
      rw [hstep, hres]
      simp

theorem dispatchLoop_error (client : Nat → RemoteCall → Except String UpdateResult)
    (kind : String) (hkind : kind = "stack" ∨ kind = "procedure")
    (bad msg : String) (rest : List String) :
    ∀ (ys : List String) (i0 : Nat) (calls : List RemoteCall) (acc : List UpdateItem),
      (∀ j (h : j < ys.length),
        ∃ r, client (i0 + j) (theCall kind (ys.get ⟨j, h⟩)) = Except.ok r) →
      client (i0 + ys.length) (theCall kind bad) = Except.error msg →
      dispatchLoop client kind (ys ++ bad :: rest) i0 calls acc =
        (calls ++ (ys ++ [bad]).map (theCall kind), Except.error msg) := by
  intro ys
  induction ys with
  | nil =>
      intro i0 calls acc _ hbad
      have hbad' : client i0 (theCall kind bad) = Except.error msg := hbad
      simp only [List.nil_append, dispatchLoop]
      rw [executeOne_valid _ _ _ hkind, hbad']
      simp
  | cons name ys ih =>
      intro i0 calls acc hok hbad
      obtain ⟨r, hr⟩ := hok 0 (by simp)
      have hr' : client i0 (theCall kind name) = Except.ok r := hr
      have hok' : ∀ j (h : j < ys.length),
          ∃ r2, client (i0 + 1 + j) (theCall kind (ys.get ⟨j, h⟩)) = Except.ok r2 := by
        intro j h
        have h2 := hok (j + 1) (by simp; omega)
        have e : i0 + (j + 1) = i0 + 1 + j := by omega
        rw [e] at h2
        exact h2
      have hbad' : client (i0 + 1 + ys.length) (theCall kind bad) = Except.error msg := by
        have e : i0 + (name :: ys).length = i0 + 1 + ys.length := by
          simp [List.length_cons]
          omega
        rw [e] at hbad
        exact hbad
      have hstep : dispatchLoop client kind ((name :: ys) ++ bad :: rest) i0 calls acc =
          dispatchLoop client kind (ys ++ bad :: rest) (i0 + 1)
            (calls ++ [theCall kind name]) (acc ++ flattenOne r) := by
        simp only [List.cons_append, dispatchLoop]
        rw [executeOne_valid _ _ _ hkind, hr']
        rfl
      rw [hstep, ih (i0 + 1) (calls ++ [theCall kind name]) (acc ++ flattenOne r) hok' hbad']
      simp

theorem sentinelOutputs_nonempty (ys : List String) (b : String) (rest : List String) :
    sentinelOutputs (ys ++ b :: rest) = [] := by
  unfold sentinelOutputs
  rw [if_neg]
  simp

/-- Claim C2: a value appears as a key of the final status mapping exactly
when it passed the `hasOid` guard, i.e. it exposes an `operation` field
and its `_id.$oid` is a string; values failing either check never become
keys. -/
theorem statusMap_keys_iff_valid_record
    (results : List UpdateItem) (k : String) :
    k ∈ (buildStatusMap results).map Prod.fst ↔
      ∃ u ∈ results, hasOid u = true ∧ u.oid = some k := by
  unfold buildStatusMap
  rw [mem_keys_foldl]
  simp only [List.map_nil, List.not_mem_nil, false_or]
  constructor
  · rintro ⟨u, hu, hk⟩
    obtain ⟨hmem, hpass⟩ := List.mem_filter.mp hu
    refine ⟨u, hmem, hpass, ?_⟩
    cases hoid : u.oid with
    | none =>
        exfalso
        unfold hasOid at hpass
        rw [hoid] at hpass
        simp at hpass
    | some s =>
        rw [hoid] at hk
        simp only [Option.getD_some] at hk
        rw [hk]
  · rintro ⟨u, hu, hpass, hoid⟩
    refine ⟨u, List.mem_filter.mpr ⟨hu, hpass⟩, ?_⟩
    rw [hoid]
    rfl

/-- Claim C7: `executeOne` with kind `stack` issues exactly the
`DeployStack` call with payload `stack = name` and returns the client's
answer; with kind `procedure` exactly the `RunProcedure` call with
payload `procedure = name`; with any other kind it throws
`Unsupported kind: <kind>` and issues no remote call. -/
theorem executeOne_dispatches_by_kind
    (respond : RemoteCall → Except String UpdateResult) (name : String) :
    executeOne respond "stack" name =
      ([⟨"DeployStack", "stack", name⟩], respond ⟨"DeployStack", "stack", name⟩) ∧
    executeOne respond "procedure" name =
      ([⟨"RunProcedure", "procedure", name⟩], respond ⟨"RunProcedure", "procedure", name⟩) ∧
    ∀ kind : String, kind ≠ "stack" → kind ≠ "procedure" →
      executeOne respond kind name =
        ([], Except.error ("Unsupported kind: " ++ kind)) := by
  refine ⟨rfl, rfl, ?_⟩
  intro kind h1 h2
  unfold executeOne
  split
  · exact absurd rfl h1
  · exact absurd rfl h2
  · rfl

/-- Claim C8: the normalizer expands a list-valued result in place,
keeping relative order (and a single result contributes exactly itself),
and reading any key of the status mapping built by the reduce yields the
status of the last matching record: last write wins. -/
theorem normalizer_flattens_and_last_write_wins :
    (∀ (rs1 rs2 : List UpdateResult) (r : UpdateResult),
        flattenResults (rs1 ++ r :: rs2) =
          flattenResults rs1 ++ flattenOne r ++ flattenResults rs2) ∧
    (∀ u, flattenOne (UpdateResult.single u) = [u]) ∧
    (∀ l, flattenOne (UpdateResult.list l) = l) ∧
    (∀ (items : List UpdateItem) (k : String),
        lookupKey (buildStatusMap items) k = lastWins items k) := by
  refine ⟨?_, fun u => rfl, fun l => rfl, ?_⟩
  · intro rs1 rs2 r
    rw [flattenResults_append, flattenResults_cons, List.append_assoc]
  · intro items k
    rw [lastWins_filter]
    unfold buildStatusMap
    rw [lookupKey_foldl]
    cases lastKeyStatus (items.filter hasOid) k with
    | none => rfl
    | some s => rfl

/-- Claim C9: any error thrown inside the body of the run is caught by
the single top-level boundary, which reports the run as failed with
exactly that error's message. -/
theorem top_level_boundary_reports_message
    (inp : Inputs) (env : Env)
    (client : Nat → RemoteCall → Except String UpdateResult) (m : String)
    (h : (runBody inp env client).2 = BodyOutcome.thrown m) :
    (run inp env client).failed = some m := by
  unfold run
  cases hb : runBody inp env client with
  | mk e o =>
      rw [hb] at h
      simp only at h
      cases o with
      | ok => exact absurd h (by simp)
      | failedDirect m2 => exact absurd h (by simp)
      | thrown m2 =>
          have : m2 = m := by
            injection h
          subst this
          rfl

/-- Claim C9 witness: a run whose `patterns` string fails to parse is
reported failed with the parse error message. -/
theorem top_level_boundary_reports_message_witness :
    (run inpParseFailOnly envEmpty clientBoom).failed = some "bad input" :=
  top_level_boundary_reports_message inpParseFailOnly envEmpty clientBoom "bad input" rfl

/-- Claim C1: when `patterns` parses to the empty list, connection
parameters are valid and dry-run is false, the run first sets `updates`
to the sentinel string, the dispatch loop performs zero remote calls, and
the run finally sets `updates` to the empty mapping, overwriting the
sentinel; the run succeeds. -/
theorem empty_patterns_sentinel_overwritten
    (inp : Inputs) (env : Env)
    (client : Nat → RemoteCall → Except String UpdateResult)
    (hp : inp.patterns = Parsed.arr [])
    (hdry : inp.dryRun ≠ "true")
    (hcred : credsMissing inp env = false) :
    (run inp env client).outputs =
      [("updates", OutputVal.str "Nothing to update here"),
       ("updates", OutputVal.map [])] ∧
    (run inp env client).calls = [] ∧
    (run inp env client).failed = none := by
  simp [run, runBody, hp, hdry, hcred, dispatchLoop, buildStatusMap, sentinelOutputs]

/-- Claim C1 witness: concrete inputs with an empty target list, valid
credentials and dry-run off. -/
theorem empty_patterns_sentinel_overwritten_witness :
    (run inpEmptyList envEmpty clientBoom).outputs =
      [("updates", OutputVal.str "Nothing to update here"),
       ("updates", OutputVal.map [])] ∧
    (run inpEmptyList envEmpty clientBoom).calls = [] ∧
    (run inpEmptyList envEmpty clientBoom).failed = none :=
  empty_patterns_sentinel_overwritten inpEmptyList envEmpty clientBoom rfl
    (by decide) (by decide)

/-- Claim C3: when the call for the target after the prefix `ys` rejects
with `msg` (all calls for `ys` having resolved), the run fails with
exactly `msg`, no `updates` output is set, no summary is written, and the
targets after the failing one are never dispatched: the call trace covers
exactly `ys` and the failing target. -/
theorem rejection_aborts_run
    (inp : Inputs) (env : Env)
    (client : Nat → RemoteCall → Except String UpdateResult)
    (ys : List String) (bad : String) (rest : List String) (msg : String)
    (hkind : inp.kind = "stack" ∨ inp.kind = "procedure")
    (hp : inp.patterns = Parsed.arr (ys ++ bad :: rest))
    (hdry : inp.dryRun ≠ "true")
    (hcred : credsMissing inp env = false)
    (hok : ∀ j (h : j < ys.length),
      ∃ r, client j (theCall inp.kind (ys.get ⟨j, h⟩)) = Except.ok r)
    (hbad : client ys.length (theCall inp.kind bad) = Except.error msg) :
    (run inp env client).failed = some msg ∧
    (run inp env client).outputs = [] ∧
    (run inp env client).summary = [] ∧
    (run inp env client).calls = (ys ++ [bad]).map (theCall inp.kind) := by
  have hok0 : ∀ j (h : j < ys.length),
      ∃ r, client (0 + j) (theCall inp.kind (ys.get ⟨j, h⟩)) = Except.ok r := by
    intro j h
    simpa [Nat.zero_add] using hok j h
  have hbad0 : client (0 + ys.length) (theCall inp.kind bad) = Except.error msg := by
    simpa [Nat.zero_add] using hbad
  have hloop := dispatchLoop_error client inp.kind hkind bad msg rest ys 0 [] [] hok0 hbad0
  simp [run, runBody, hp, hdry, hcred, hloop, sentinelOutputs_nonempty]

/-- Claim C3 witness: two targets, the second call rejects with `boom`. -/
theorem rejection_aborts_run_witness :
    (run inpTwoTargetsFail envEmpty clientFailSecond).failed = some "boom" ∧
    (run inpTwoTargetsFail envEmpty clientFailSecond).outputs = [] ∧
    (run inpTwoTargetsFail envEmpty clientFailSecond).summary = [] ∧
    (run inpTwoTargetsFail envEmpty clientFailSecond).calls =
      (["a"] ++ ["b"]).map (theCall inpTwoTargetsFail.kind) :=
  rejection_aborts_run inpTwoTargetsFail envEmpty clientFailSecond
    ["a"] "b" [] "boom" (Or.inl rfl) rfl (by decide) (by decide)
    (fun j h => by
      have hj : j = 0 := Nat.lt_one_iff.mp (by simpa using h)
      subst hj
      exact ⟨UpdateResult.list [], rfl⟩)
    rfl

/-- Claim C4 counterexample: an input with dry-run `"true"` whose
`patterns` string does not parse — the run throws before the dry-run
check, so the `updates` output is never set to the empty mapping
(no output is set at all), refuting the claim for arbitrary inputs. -/
theorem dry_run_counterexample :
    inpDryBadParse.dryRun = "true" ∧
    ("updates", OutputVal.map []) ∉ (run inpDryBadParse envEmpty clientBoom).outputs ∧
    (run inpDryBadParse envEmpty clientBoom).outputs = [] ∧
    (run inpDryBadParse envEmpty clientBoom).failed =
      some "Unexpected token x in JSON" := by
  refine ⟨rfl, by decide, rfl, rfl⟩

/-- Claim C4 (amended): for every input whose `patterns` input parses to
an array and whose dry-run input is the string `true`, the run makes zero
remote calls, its final `updates` output is the empty mapping, and it
writes nothing to the summary sink. -/
theorem dry_run_short_circuit
    (inp : Inputs) (env : Env)
    (client : Nat → RemoteCall → Except String UpdateResult)
    (xs : List String)
    (hp : inp.patterns = Parsed.arr xs)
    (hdry : inp.dryRun = "true") :
    (run inp env client).calls = [] ∧
    (run inp env client).summary = [] ∧
    (run inp env client).outputs.getLast? = some ("updates", OutputVal.map []) := by
  simp [run, runBody, hp, hdry, getLast?_append_single]

/-- Claim C4 witness: one target, dry-run on. -/
theorem dry_run_short_circuit_witness :
    (run inpDryOne envEmpty clientBoom).calls = [] ∧
    (run inpDryOne envEmpty clientBoom).summary = [] ∧
    (run inpDryOne envEmpty clientBoom).outputs.getLast? =
      some ("updates", OutputVal.map []) :=
  dry_run_short_circuit inpDryOne envEmpty clientBoom ["a"] rfl rfl

/-- Claim C5 counterexample: all three connection parameters are absent
and dry-run is false, yet the run fails with the parse error message, not
the configuration message, because the `patterns` string does not parse
— refuting the claim for arbitrary inputs. -/
theorem missing_credentials_counterexample :
    credsMissing inpNoCredsBadParse envEmpty = true ∧
    inpNoCredsBadParse.dryRun ≠ "true" ∧
    (run inpNoCredsBadParse envEmpty clientBoom).failed =
      some "Unexpected end of JSON input" ∧
    (run inpNoCredsBadParse envEmpty clientBoom).failed ≠
      some "Komodo URL / API key / API secret must be provided either via input or env" := by
  refine ⟨by decide, by decide, rfl, by decide⟩

/-- Claim C5 (amended): for every input whose `patterns` input parses to
an array, if any one of the three connection parameters is absent from
both its explicit input and its fallback environment variable and dry-run
is false, the run fails with the exact configuration message and makes
zero remote calls (and writes no summary). -/
theorem missing_credentials_fail
    (inp : Inputs) (env : Env)
    (client : Nat → RemoteCall → Except String UpdateResult)
    (xs : List String)
    (hp : inp.patterns = Parsed.arr xs)
    (hdry : inp.dryRun ≠ "true")
    (hcred : credsMissing inp env = true) :
    (run inp env client).failed =
      some "Komodo URL / API key / API secret must be provided either via input or env" ∧
    (run inp env client).calls = [] ∧
    (run inp env client).summary = [] := by
  simp [run, runBody, hp, hdry, hcred]

/-- Claim C5 witness: one target, no credentials anywhere, dry-run off. -/
theorem missing_credentials_fail_witness :
    (run inpNoCreds envEmpty clientBoom).failed =
      some "Komodo URL / API key / API secret must be provided either via input or env" ∧
    (run inpNoCreds envEmpty clientBoom).calls = [] ∧
    (run inpNoCreds envEmpty clientBoom).summary = [] :=
  missing_credentials_fail inpNoCreds envEmpty clientBoom ["a"] rfl
    (by decide) (by decide)

/-- Claim C6: for a valid target list whose calls all resolve, the remote
call trace is exactly one call per target, in target-list order; the loop
is sequential, consulting the client for target `N+1` only after the call
for target `N` has settled. -/
theorem sequential_calls_in_target_order
    (inp : Inputs) (env : Env)
    (client : Nat → RemoteCall → Except String UpdateResult)
    (xs : List String)
    (hkind : inp.kind = "stack" ∨ inp.kind = "procedure")
    (hp : inp.patterns = Parsed.arr xs)
    (hdry : inp.dryRun ≠ "true")
    (hcred : credsMissing inp env = false)
    (hok : ∀ j (h : j < xs.length),
      ∃ r, client j (theCall inp.kind (xs.get ⟨j, h⟩)) = Except.ok r) :
    (run inp env client).calls = xs.map (theCall inp.kind) := by
  have hok0 : ∀ j (h : j < xs.length),
      ∃ r, client (0 + j) (theCall inp.kind (xs.get ⟨j, h⟩)) = Except.ok r := by
    intro j h
    simpa [Nat.zero_add] using hok j h
  obtain ⟨res, hres⟩ := dispatchLoop_ok client inp.kind hkind xs 0 [] [] hok0
  simp [run, runBody, hp, hdry, hcred, hres]

/-- Claim C6 witness: two targets, all calls resolving. -/
theorem sequential_calls_in_target_order_witness :
    (run inpTwoTargets envEmpty clientOkEmpty).calls =
      (["a", "b"] : List String).map (theCall inpTwoTargets.kind) :=
  sequential_calls_in_target_order inpTwoTargets envEmpty clientOkEmpty
    ["a", "b"] (Or.inl rfl) rfl (by decide) (by decide)
    (fun j h => ⟨UpdateResult.list [], rfl⟩)

/-- Claim C7 witness: an unsupported kind value is rejected without any
remote call, with the offending value named in the message. -/
theorem executeOne_dispatches_by_kind_witness :
    executeOne respondNever "service" "foo" =
      ([], Except.error ("Unsupported kind: " ++ "service")) :=
  (executeOne_dispatches_by_kind respondNever "foo").2.2 "service"
    (by decide) (by decide)

/-- Claim C10 counterexample: dry-run `"true"` with all three connection
parameters absent, but a `patterns` string that does not parse: the run
fails (with the parse message) instead of succeeding with an empty
mapping — refuting the claim for arbitrary inputs. -/
theorem dry_run_precedes_credentials_counterexample :
    inpDryNoCredsBadParse.dryRun = "true" ∧
    credsMissing inpDryNoCredsBadParse envEmpty = true ∧
    (run inpDryNoCredsBadParse envEmpty clientBoom).failed = some "not json" ∧
    ("updates", OutputVal.map []) ∉
      (run inpDryNoCredsBadParse envEmpty clientBoom).outputs := by
  refine ⟨rfl, by decide, rfl, by decide⟩

/-- Claim C10 (amended): when dry-run is `"true"` and the `patterns`
input parses to an array, the run succeeds and its final `updates` output
is the empty mapping even if all three connection parameters are absent
from both inputs and environment: the dry-run return precedes the
missing-credentials check, so the configuration error is never raised in
that case. -/
theorem dry_run_precedes_credential_check
    (inp : Inputs) (env : Env)
    (client : Nat → RemoteCall → Except String UpdateResult)
    (xs : List String)
    (hp : inp.patterns = Parsed.arr xs)
    (hdry : inp.dryRun = "true")
    (_hcred : credsMissing inp env = true) :
    (run inp env client).failed = none ∧
    (run inp env client).outputs.getLast? = some ("updates", OutputVal.map []) ∧
    (run inp env client).calls = [] := by
  simp [run, runBody, hp, hdry, getLast?_append_single]

/-- Claim C10 witness: one target, dry-run on, no credentials anywhere. -/
theorem dry_run_precedes_credential_check_witness :
    (run inpDryNoCreds envEmpty clientBoom).failed = none ∧
    (run inpDryNoCreds envEmpty clientBoom).outputs.getLast? =
      some ("updates", OutputVal.map []) ∧
    (run inpDryNoCreds envEmpty clientBoom).calls = [] :=
  dry_run_precedes_credential_check inpDryNoCreds envEmpty clientBoom ["x"]
    rfl rfl (by decide)

end Komodo
